import Mathlib

/-!
Shallow embedding of the MS²Rescore rescoring orchestrator:
`ms2rescore/core.py`, function `rescore` together with its helpers
`_match_psm_ids` and `_write_feature_names`.

External collaborators of `core.py` (the psm_utils PSM collection methods,
the feature-generator plugins and the rescoring-engine adapters) are not in
the repository slice; they enter the embedding through an `Env` record of
abstract functions whose frame (which PSM fields they may touch) is modelled
from the specification's contracts.  File writes and log calls performed by
`core.py` are recorded as `Event`s in a trace, so that ordering and
"did the run reach this stage" properties can be stated.
-/

namespace MS2Rescore

/-- Values stored in a PSM's `provenance_data` bag by the snapshot at
`core.py` lines 71-80 (scores/q-values/PEPs are floats, ranks integers;
all nullable). -/
inductive ProvValue where
  | num : Option Rat → ProvValue
  | int : Option Int → ProvValue
deriving DecidableEq

/-- Modelled from the spec: one peptide-spectrum match record (the external
psm_utils `PSM` class), restricted to the attributes `core.py` reads or
writes (spec §3 data model). -/
structure PSM where
  spectrum_id : String
  peptidoform : String
  score : Option Rat
  qvalue : Option Rat
  pep : Option Rat
  rank : Option Int
  is_decoy : Bool
  source : String
  rescoring_features : List (String × Rat)
  provenance_data : List (String × ProvValue)
deriving DecidableEq

/-- Python `d[k] = v` on an association list representing a dict:
replace in place if the key is present, else append. -/
def dictSet {α : Type} (l : List (String × α)) (k : String) (v : α) :
    List (String × α) :=
  if l.any (fun e => e.1 == k) then
    l.map (fun e => if e.1 == k then (k, v) else e)
  else l ++ [(k, v)]

/-- Python `d.update(news)` on an association list representing a dict. -/
def dictUpdate {α : Type} (l news : List (String × α)) : List (String × α) :=
  news.foldl (fun acc kv => dictSet acc kv.1 kv.2) l

/-- Python `d.get(k)`: value of the first entry with key `k`, if any. -/
def dictGet {α : Type} (l : List (String × α)) (k : String) : Option α :=
  (l.find? (fun e => e.1 == k)).map (fun e => e.2)

/-- The keys of a PSM's `rescoring_features` dict, as a set
(`set(psm.rescoring_features.keys())` in `core.py` lines 102, 124, 132). -/
def keySet (p : PSM) : Finset String :=
  (p.rescoring_features.map Prod.fst).toFinset

/-- Errors the orchestrator can raise.  `zeroDivisionError` is Python's
`ZeroDivisionError` (line 52 on an empty collection), `typeError` is the
`TypeError` of comparing `None <= 0.01` (lines 66-68 and 178-180), and the
other two are the exception classes of `ms2rescore.exceptions` raised in
`core.py`. -/
inductive RunError where
  | zeroDivisionError
  | typeError
  | ms2RescoreConfigurationError (msg : String)
  | ms2RescoreError (msg : String)
deriving DecidableEq

instance {ε α : Type} [DecidableEq ε] [DecidableEq α] : DecidableEq (Except ε α) := fun a b =>
  match a, b with
  | .ok x, .ok y =>
    if h : x = y then .isTrue (by rw [h])
    else .isFalse (by intro hc; cases hc; exact h rfl)
  | .error x, .error y =>
    if h : x = y then .isTrue (by rw [h])
    else .isFalse (by intro hc; cases hc; exact h rfl)
  | .ok _, .error _ => .isFalse (by intro hc; cases hc)
  | .error _, .ok _ => .isFalse (by intro hc; cases hc)

/-- Message of the `MS2RescoreConfigurationError` raised at
`core.py` lines 55-58. -/
def noDecoysMsg : String :=
  "No decoy PSMs found. Please check if decoys are present in the PSM file and that the `id_decoy_pattern` option is correct."

/-- Message of the `MS2RescoreError` raised by `_match_psm_ids`
(`core.py` lines 213-216). -/
def patternMismatchMsg : String :=
  "`psm_id_pattern` could not be matched to all PSM spectrum IDs. Ensure that the regex contains a capturing group?"

/-- Result of Python's `re.search(pattern, s)` followed by `match[1]`, as
used by `_match_psm_ids` (`core.py` lines 207-216): no match at all
(`match` is `None`, so `match[1]` raises `TypeError`), a match whose
pattern has no capturing group 1 (`match[1]` raises `IndexError`), or a
match whose group 1 value is returned (`None` when the group did not
participate in the match). -/
inductive PyMatchResult where
  | noMatch
  | noGroup
  | group (g : Option String)
deriving DecidableEq

/-- Modelled from the spec: a feature-generator plugin (spec §4.3 contract);
it declares `feature_names` and annotates each PSM in place with named
numeric features stored in `rescoring_features` (possibly none for PSMs it
cannot score). -/
structure GenBehavior where
  featureNames : Finset String
  features : PSM → List (String × Rat)

/-- Modelled from the spec: the per-PSM output of a rescoring-engine
adapter, which mutates the `score`, `qvalue`, `pep` and `rank` fields of the
collection in place (spec §4.4 contract). -/
structure NewScores where
  score : Option Rat
  qvalue : Option Rat
  pep : Option Rat
  rank : Option Int
deriving DecidableEq

/-- The external collaborators of `core.py`, abstracted as functions.
Each field is modelled from the spec's contract for the corresponding
external component (psm_utils collection methods, feature generators,
rescoring-engine adapters), since their code is outside the slice. -/
structure Env where
  /-- Contents of `config["psm_file"]` as read by `psm_utils.io.read_file`
  (line 42). -/
  filePsms : List PSM
  /-- Modelled from the spec: `PSMList.find_decoys(pattern)` labels
  `is_decoy := true` for every PSM the pattern matches (spec §4.1). -/
  isDecoyMatch : String → PSM → Bool
  /-- Modelled from the spec: `PSMList.calculate_qvalues(reverse)` recomputes
  the q-value of every PSM of the collection (spec §4.1); the argument is
  `reverse = not lower_score_is_better` (line 63). -/
  newQvalues : Bool → List PSM → List (Option Rat)
  /-- Modelled from the spec: `rename_modifications` canonicalizes the
  peptidoform's modification labels (spec §4.1). -/
  renameMods : String → String
  /-- Modelled from the spec: `add_fixed_modifications` (spec §4.1). -/
  addFixedMods : String → String
  /-- Modelled from the spec: `apply_fixed_modifications` (spec §4.1). -/
  applyFixedMods : String → String
  /-- Python `re.search(pattern, s)` plus `match[1]`, for the configured
  `psm_id_pattern` (first argument) on a spectrum id (second argument). -/
  search : String → String → PyMatchResult
  /-- Modelled from the spec: `FEATURE_GENERATORS[name](**conf)` constructs
  the named feature-generator plugin (spec §4.3). -/
  generators : String → GenBehavior
  /-- Modelled from the spec: `psm.get_usi(as_url=False)` derives a
  universal spectrum identifier from the PSM (spec step 7). -/
  getUsi : PSM → String
  /-- Modelled from the spec: output of `percolator.rescore` for the
  collection (spec §4.4). -/
  percolatorOut : List PSM → List NewScores
  /-- Modelled from the spec: output of `mokapot.rescore` for the
  collection (spec §4.4). -/
  mokapotOut : List PSM → List NewScores

/-- The configuration keys of `config["ms2rescore"]` that `core.py` reads.
`feature_generators` and `rescoring_engine` are dicts in Python; only their
keys (in insertion order) matter to the orchestrator's control flow, the
per-entry sub-configurations being consumed by the external plugins. -/
structure Config where
  output_path : String
  id_decoy_pattern : Option String
  lower_score_is_better : Bool
  psm_id_pattern : Option String
  rename_to_usi : Bool
  feature_generators : List String
  rescoring_engine : List String
deriving DecidableEq

/-- Trace of the side effects (file writes, log calls, external invocations)
performed by one `rescore` run, in order. -/
inductive Event where
  | writeFullConfig (path : String)
  | calculateQvalues
  | captureProvenance
  | parseModifications
  | applyPsmIdPattern
  | runFeatureGenerator (name : String)
  | filterWarning (removed : Nat) (missing : Finset String)
  | writeFeatureNames (path : String)
  | renameToUsi
  | writePinFile (path : String) (featureNames : Finset String)
  | runPercolator
  | runMokapot
  | infoNoKnownEngine
  | compareResults (idBefore idAfter : Nat)
  | writePsmsTsv (path : String)
deriving DecidableEq

/-- Python truthiness of `config[key]` for an optional string option
(`None` and the empty string are falsy). -/
def truthyStr : Option String → Bool
  | none => false
  | some s => !(s == "")

/-- `core.py` line 41: `if not psm_list:` — a missing or empty passed-in
collection is replaced by the PSM file's contents. -/
def resolvePsmList (filePsms : List PSM) : Option (List PSM) → List PSM
  | none => filePsms
  | some l => if l.isEmpty then filePsms else l

/-- `core.py` lines 49-50: apply `find_decoys` when `id_decoy_pattern` is
truthy, otherwise keep the pre-existing labels. -/
def decoyStage (env : Env) (c : Config) (psms : List PSM) : List PSM :=
  match c.id_decoy_pattern with
  | none => psms
  | some pat =>
    if pat == "" then psms
    else psms.map (fun p => if env.isDecoyMatch pat p then { p with is_decoy := true } else p)

/-- `core.py` lines 51-58: `percent_decoys = sum(...) / n_psms * 100`
raises `ZeroDivisionError` on an empty collection (line 52), and the
`MS2RescoreConfigurationError` for a decoy-free collection is raised
afterwards (lines 54-58). -/
def decoyCheck (psms : List PSM) : Except RunError Unit :=
  if psms.length = 0 then .error .zeroDivisionError
  else if psms.any (fun p => p.is_decoy) then .ok ()
  else .error (.ms2RescoreConfigurationError noDecoysMsg)

/-- Write the q-values produced by `calculate_qvalues` back into the
collection, one per PSM (in-place field mutation of the external call). -/
def applyQvalues : List PSM → List (Option Rat) → List PSM
  | [], _ => []
  | ps, [] => ps
  | p :: ps, q :: qs => { p with qvalue := q } :: applyQvalues ps qs

/-- `core.py` lines 60-63: recompute q-values only when at least one is
missing (`if None in psm_list["qvalue"]`). -/
def qvalueStage (env : Env) (c : Config) (psms : List PSM) : List PSM :=
  if psms.any (fun p => p.qvalue.isNone) then
    applyQvalues psms (env.newQvalues (!c.lower_score_is_better) psms)
  else psms

/-- The FDR threshold `0.01` of `core.py` lines 67 and 179, as the exact
rational 1/100 (given as a normalized fraction so that it evaluates). -/
def qCutoff : Rat := ⟨1, 100, by decide, Nat.coprime_one_left 100⟩

/-- One flag per PSM of `(psm_list["qvalue"] <= 0.01) & (psm_list["is_decoy"]
== False)` (`core.py` lines 66-68 and 178-180); comparing a missing (`None`)
q-value with `0.01` raises `TypeError`. -/
def idFlagsE : List PSM → Except RunError (List Bool)
  | [] => .ok []
  | p :: ps =>
    match p.qvalue with
    | none => .error .typeError
    | some q =>
      match idFlagsE ps with
      | .error e => .error e
      | .ok bs => .ok ((decide (q ≤ qCutoff) && !p.is_decoy) :: bs)

/-- The number of identified PSMs (q-value at most 0.01 and not decoy),
i.e. the `.sum()` of the flags of `idFlagsE`. -/
def idCountE (psms : List PSM) : Except RunError Nat :=
  match idFlagsE psms with
  | .error e => .error e
  | .ok bs => .ok (bs.count true)

/-- The four provenance entries written by the snapshot at `core.py`
lines 72-80, from the PSM's current field values. -/
def snapshotEntries (p : PSM) : List (String × ProvValue) :=
  [("before_rescoring_score", ProvValue.num p.score),
   ("before_rescoring_qvalue", ProvValue.num p.qvalue),
   ("before_rescoring_pep", ProvValue.num p.pep),
   ("before_rescoring_rank", ProvValue.int p.rank)]

/-- `psm.provenance_data.update({...})` for one PSM (`core.py` lines 72-80). -/
def snapshotProv (p : PSM) : PSM :=
  { p with provenance_data := dictUpdate p.provenance_data (snapshotEntries p) }

/-- `core.py` lines 82-85: `rename_modifications`, `add_fixed_modifications`
and `apply_fixed_modifications` canonicalize every PSM's peptidoform. -/
def modStage (env : Env) (psms : List PSM) : List PSM :=
  psms.map (fun p =>
    { p with peptidoform := env.applyFixedMods (env.addFixedMods (env.renameMods p.peptidoform)) })

/-- `_match_psm_ids` (`core.py` lines 207-216): return `match[1]`, raising
`MS2RescoreError` when the search fails (`TypeError`) or the pattern has no
capturing group (`IndexError`). -/
def matchPsmIds (search : String → PyMatchResult) (old_id : String) :
    Except RunError (Option String) :=
  match search old_id with
  | .noMatch => .error (.ms2RescoreError patternMismatchMsg)
  | .noGroup => .error (.ms2RescoreError patternMismatchMsg)
  | .group g => .ok g

/-- Python's `str(x)` for the value returned by `match[1]` (`core.py`
line 95 coerces every spectrum id to `str`; a non-participating capture
group yields `None`, which stringifies to `"None"`). -/
def pyStrOpt : Option String → String
  | none => "None"
  | some s => s

/-- Map a fallible function over a list, short-circuiting at the first
error, as a Python list comprehension does (`core.py` line 90). -/
def mapExcept {α β : Type} (f : α → Except RunError β) :
    List α → Except RunError (List β)
  | [] => .ok []
  | a :: as =>
    match f a with
    | .error e => .error e
    | .ok b =>
      match mapExcept f as with
      | .error e => .error e
      | .ok bs => .ok (b :: bs)

/-- `psm_list["spectrum_id"] = new_ids` (`core.py` line 91), with the `str`
coercion of line 95 folded in (nothing observes the ids in between). -/
def applySpectrumIds : List PSM → List (Option String) → List PSM
  | [], _ => []
  | ps, [] => ps
  | p :: ps, i :: ids =>
    { p with spectrum_id := pyStrOpt i } :: applySpectrumIds ps ids

/-- `core.py` lines 87-91: when `psm_id_pattern` is truthy, replace every
spectrum id by the first capture group of its match, aborting the run on
the first PSM for which `_match_psm_ids` raises. -/
def patternStage (env : Env) (c : Config) (psms : List PSM) :
    Except RunError (List PSM) :=
  match c.psm_id_pattern with
  | none => .ok psms
  | some pat =>
    if pat == "" then .ok psms
    else
      match mapExcept (fun p => matchPsmIds (env.search pat) p.spectrum_id) psms with
      | .error e => .error e
      | .ok ids => .ok (applySpectrumIds psms ids)

/-- The feature names already present in the input file, collected before
any generator runs (`core.py` lines 99-103). -/
def psmFileFeatureNames (psms : List PSM) : Finset String :=
  psms.foldr (fun p acc => keySet p ∪ acc) ∅

/-- `core.py` lines 110-119: run the configured feature generators in
order.  The `maxquant` generator is skipped when not every PSM's `source`
is `"msms"` (line 112-113).  Returns the annotated collection, the
generator-name → declared-feature-names registry entries in order, and the
trace of generator invocations. -/
def runGenerators (env : Env) :
    List String → List PSM → List PSM × List (String × Finset String) × List Event
  | [], psms => (psms, [], [])
  | name :: rest, psms =>
    if name == "maxquant" && !(psms.all (fun p => p.source == "msms")) then
      runGenerators env rest psms
    else
      let g := env.generators name
      let psms' := psms.map (fun p =>
        { p with rescoring_features := dictUpdate p.rescoring_features (g.features p) })
      let r := runGenerators env rest psms'
      (r.1, (name, g.featureNames) :: r.2.1, Event.runFeatureGenerator name :: r.2.2)

/-- `all_feature_names` (`core.py` line 122): union of the feature-name
sets of every registry entry. -/
def unionRegistry (reg : List (String × Finset String)) : Finset String :=
  reg.foldr (fun e acc => e.2 ∪ acc) ∅

/-- `psms_with_features` (`core.py` lines 123-125): one boolean per PSM,
true when its feature-key set equals the union exactly. -/
def featureMask (u : Finset String) (psms : List PSM) : List Bool :=
  psms.map (fun p => decide (keySet p = u))

/-- Boolean-mask indexing `psm_list[mask]` of the PSM collection
(order-preserving). -/
def maskFilter : List PSM → List Bool → List PSM
  | [], _ => []
  | ps, [] => ps
  | p :: ps, b :: bs => if b then p :: maskFilter ps bs else maskFilter ps bs

/-- `psms_with_features.count(False)` (`core.py` lines 127, 135). -/
def removedCountOf (u : Finset String) (psms : List PSM) : Nat :=
  (featureMask u psms).count false

/-- `missing_features` (`core.py` lines 129-133): union over the removed
PSMs of the feature names each one lacks. -/
def missingOf (u : Finset String) (psms : List PSM) : Finset String :=
  (maskFilter psms ((featureMask u psms).map (fun b => !b))).foldr
    (fun p acc => (u \ keySet p) ∪ acc) ∅

/-- `core.py` lines 121-139: the feature-completeness filter.  Emits the
warning (with removed count and missing names) only when at least one PSM
is removed, then keeps exactly the PSMs whose key set equals the union. -/
def filterStage (reg : List (String × Finset String)) (psms : List PSM) :
    List PSM × List Event :=
  let u := unionRegistry reg
  let evts :=
    if removedCountOf u psms > 0 then
      [Event.filterWarning (removedCountOf u psms) (missingOf u psms)]
    else []
  (maskFilter psms (featureMask u psms), evts)

/-- `core.py` lines 143-145: replace every spectrum id by the PSM's USI
when `rename_to_usi` is configured. -/
def usiStage (env : Env) (c : Config) (psms : List PSM) : List PSM :=
  if c.rename_to_usi then psms.map (fun p => { p with spectrum_id := env.getUsi p })
  else psms

/-- Write a rescoring engine's per-PSM output back into the collection's
`score`, `qvalue`, `pep` and `rank` fields (in-place mutation of the
external adapter, spec §4.4). -/
def applyEngineOutput : List PSM → List NewScores → List PSM
  | [], _ => []
  | ps, [] => ps
  | p :: ps, n :: ns =>
    { p with score := n.score, qvalue := n.qvalue, pep := n.pep, rank := n.rank }
      :: applyEngineOutput ps ns

/-- `core.py` lines 158-175: dispatch to `percolator` when its key is
present, else to `mokapot` when present, else log an info message and skip
rescoring. -/
def engineDispatch (env : Env) (c : Config) (psms : List PSM) :
    List PSM × List Event :=
  if c.rescoring_engine.contains "percolator" then
    (applyEngineOutput psms (env.percolatorOut psms), [Event.runPercolator])
  else if c.rescoring_engine.contains "mokapot" then
    (applyEngineOutput psms (env.mokapotOut psms), [Event.runMokapot])
  else (psms, [Event.infoNoKnownEngine])

/-- The orchestrator state after the feature generators have run:
the before-rescoring identified-PSM count, the annotated collection, the
pre-existing file feature names and the generator registry entries. -/
structure MidState where
  idBefore : Nat
  psms : List PSM
  preNames : Finset String
  genReg : List (String × Finset String)
deriving DecidableEq

/-- The full feature-name registry dict of `core.py` lines 98-119: the
reserved `"psm_file"` entry followed by the per-generator entries. -/
def regOf (st : MidState) : List (String × Finset String) :=
  ("psm_file", st.preNames) :: st.genReg

/-- `core.py` lines 30-63: write the full config, read the PSMs, label
decoys, fail on an empty (`ZeroDivisionError`) or decoy-free
(`MS2RescoreConfigurationError`) collection, and recompute q-values when
any is missing. -/
def runToQvalue (env : Env) (c : Config) (arg : Option (List PSM)) :
    Except RunError (List PSM) × List Event :=
  let tr0 := [Event.writeFullConfig (c.output_path ++ ".full-config.json")]
  let psms1 := decoyStage env c (resolvePsmList env.filePsms arg)
  match decoyCheck psms1 with
  | .error e => (.error e, tr0)
  | .ok _ =>
    let tr1 := tr0 ++ (if psms1.any (fun p => p.qvalue.isNone) then [Event.calculateQvalues] else [])
    (.ok (qvalueStage env c psms1), tr1)

/-- `core.py` lines 30-119: the run up to and including the feature
generators — q-value bookkeeping, before-rescoring count (lines 65-69),
provenance snapshot (lines 71-80), modification parsing (lines 82-85),
`psm_id_pattern` rewriting (lines 87-95), pre-existing feature-name
collection (lines 98-108) and generator invocation (lines 110-119). -/
def runToFilter (env : Env) (c : Config) (arg : Option (List PSM)) :
    Except RunError MidState × List Event :=
  match runToQvalue env c arg with
  | (.error e, tr) => (.error e, tr)
  | (.ok psms2, tr) =>
    match idCountE psms2 with
    | .error e => (.error e, tr)
    | .ok idBefore =>
      let psms4 := modStage env (psms2.map snapshotProv)
      let tr2 := tr ++ [Event.captureProvenance, Event.parseModifications]
      match patternStage env c psms4 with
      | .error e => (.error e, tr2)
      | .ok psms5 =>
        let tr3 := tr2 ++ (if truthyStr c.psm_id_pattern then [Event.applyPsmIdPattern] else [])
        let pre := psmFileFeatureNames psms5
        let gr := runGenerators env c.feature_generators psms5
        (.ok ⟨idBefore, gr.1, pre, gr.2.1⟩, tr3 ++ gr.2.2)

/-- `core.py` lines 121-195: the run from the feature-completeness filter
onwards — filtering (121-139), feature-name file (140-141), USI renaming
(143-145), PIN export and early return when no engine is configured
(147-156), engine dispatch (158-175), after-rescoring count and comparison
(177-186) and final TSV write (188-195). -/
def runFromFilter (env : Env) (c : Config) (st : MidState) (tr : List Event) :
    Except RunError (List PSM) × List Event :=
  let fr := filterStage (regOf st) st.psms
  let tr1 := tr ++ fr.2 ++ [Event.writeFeatureNames (c.output_path ++ ".feature_names.tsv")]
  let psms8 := usiStage env c fr.1
  let tr2 := tr1 ++ (if c.rename_to_usi then [Event.renameToUsi] else [])
  if c.rescoring_engine.isEmpty then
    (.ok psms8, tr2 ++ [Event.writePinFile (c.output_path ++ ".pin") (unionRegistry (regOf st))])
  else
    let er := engineDispatch env c psms8
    let tr3 := tr2 ++ er.2
    match idCountE er.1 with
    | .error e => (.error e, tr3)
    | .ok idAfter =>
      (.ok er.1,
        tr3 ++ [Event.compareResults st.idBefore idAfter,
                Event.writePsmsTsv (c.output_path ++ ".psms.tsv")])

/-- The whole `rescore` workflow of `core.py` (lines 20-195): the final
collection (or the raised error) together with the trace of side effects. -/
def rescoreRun (env : Env) (c : Config) (arg : Option (List PSM)) :
    Except RunError (List PSM) × List Event :=
  match runToFilter env c arg with
  | (.error e, tr) => (.error e, tr)
  | (.ok st, tr) => runFromFilter env c st tr

/-- Whether a run result is a success. -/
def exceptOk : Except RunError (List PSM) → Bool
  | .ok _ => true
  | .error _ => false

/-- The final collection of a successful run (empty on error). -/
def okPsms : Except RunError (List PSM) → List PSM
  | .ok l => l
  | .error _ => []

/-- The mid-state of a successful `runToFilter` result (a dummy on error);
used to instantiate theorems at concrete runs. -/
def midOf (r : Except RunError MidState × List Event) : MidState :=
  match r.1 with
  | .ok st => st
  | .error _ => ⟨0, [], ∅, []⟩

/-- Events produced by a rescoring-engine adapter invocation. -/
def isEngineEvent : Event → Bool
  | .runPercolator => true
  | .runMokapot => true
  | _ => false

/-- Events produced by the before/after comparison (lines 177-186). -/
def isCompareEvent : Event → Bool
  | .compareResults _ _ => true
  | _ => false

/-- Events produced by the final `.psms.tsv` write (lines 188-195). -/
def isTsvEvent : Event → Bool
  | .writePsmsTsv _ => true
  | _ => false

/-- Events produced by a feature-generator invocation. -/
def isGenEvent : Event → Bool
  | .runFeatureGenerator _ => true
  | _ => false

/-- Events produced by a `logger.warning` call (`core.py` has exactly one,
the feature-filter warning of lines 134-137). -/
def isWarningEvent : Event → Bool
  | .filterWarning _ _ => true
  | _ => false

/-- A search result on which `_match_psm_ids` raises. -/
def searchFails : PyMatchResult → Bool
  | .noMatch => true
  | .noGroup => true
  | .group _ => false

/-- Events that the stages up to and including the feature generators can
produce (everything before the feature-completeness filter). -/
def isToFilterEvent : Event → Bool
  | .writeFullConfig _ => true
  | .calculateQvalues => true
  | .captureProvenance => true
  | .parseModifications => true
  | .applyPsmIdPattern => true
  | .runFeatureGenerator _ => true
  | _ => false

/-- Every PSM of `out` carries the `provenance_data` of some PSM of `src`:
the stages between `src` and `out` only reorder, drop or touch other
fields. -/
def ProvFrom (src out : List PSM) : Prop :=
  ∀ q ∈ out, ∃ p ∈ src, q.provenance_data = p.provenance_data

/-! ### Concrete runs used to instantiate the theorems -/

/-- A concrete target PSM identified at 1% FDR (q-value 0). -/
def pA : PSM :=
  { spectrum_id := "s1", peptidoform := "PEP", score := some 10,
    qvalue := some 0, pep := some 0, rank := some 1,
    is_decoy := false, source := "engineX",
    rescoring_features := [], provenance_data := [] }

/-- A concrete decoy PSM (q-value 1). -/
def pB : PSM :=
  { spectrum_id := "s2", peptidoform := "PEQ", score := some 5,
    qvalue := some 1, pep := some 1, rank := some 1,
    is_decoy := true, source := "engineX",
    rescoring_features := [], provenance_data := [] }

/-- A concrete environment: one generator behaviour that declares feature
`f1` and annotates every PSM with it, engines that rescore every PSM to
fixed values. -/
def envW : Env :=
  { filePsms := []
    isDecoyMatch := fun _ p => p.is_decoy
    newQvalues := fun _ psms => psms.map (fun _ => some 0)
    renameMods := id
    addFixedMods := id
    applyFixedMods := id
    search := fun _ i => .group (some i)
    generators := fun _ => { featureNames := {"f1"}, features := fun _ => [("f1", 1)] }
    getUsi := fun p => "usi:" ++ p.spectrum_id
    percolatorOut := fun psms => psms.map (fun _ =>
      { score := some 2, qvalue := some 0, pep := some 0, rank := some 1 })
    mokapotOut := fun psms => psms.map (fun _ =>
      { score := some 3, qvalue := some 0, pep := some 0, rank := some 1 }) }

/-- A concrete configuration: one feature generator, no rescoring engine. -/
def cW : Config :=
  { output_path := "out", id_decoy_pattern := none, lower_score_is_better := false,
    psm_id_pattern := none, rename_to_usi := false,
    feature_generators := ["basic"], rescoring_engine := [] }

/-- Like `envW`, but the generator declares feature `fx` while annotating
no PSM at all, so that feature filtering removes everything. -/
def envB : Env :=
  { envW with generators := fun _ => { featureNames := {"fx"}, features := fun _ => [] } }

/-- Like `envW`, but `re.search` yields a match without a capturing
group 1 for every input (a pattern with no capturing group). -/
def envP : Env :=
  { envW with search := fun _ _ => .noGroup }

/-- Like `cW`, but with a truthy `psm_id_pattern`. -/
def cP : Config :=
  { cW with psm_id_pattern := some "mzspec:(.+)" }

/-- Like `cW`, but with both rescoring engines configured. -/
def cBoth : Config :=
  { cW with rescoring_engine := ["percolator", "mokapot"] }

/-- Like `cW`, but with only percolator configured. -/
def cPerc : Config :=
  { cW with rescoring_engine := ["percolator"] }

/-! ### Helper lemmas -/

theorem rescoreRun_eq_runFromFilter {env : Env} {c : Config} {arg : Option (List PSM)}
    {st : MidState} {tr : List Event} (h : runToFilter env c arg = (.ok st, tr)) :
    rescoreRun env c arg = runFromFilter env c st tr := by
  unfold rescoreRun
  rw [h]

theorem idFlagsE_error {l : List PSM} {e : RunError}
    (h : idFlagsE l = .error e) : e = .typeError := by
  induction l with
  | nil => simp [idFlagsE] at h
  | cons p ps ih =>
    unfold idFlagsE at h
    cases hq : p.qvalue with
    | none => simp [hq] at h; exact h.symm
    | some q =>
      rw [hq] at h
      cases hr : idFlagsE ps with
      | error e' =>
        rw [hr] at h
        injection h with h2
        subst h2
        exact ih hr
      | ok bs => rw [hr] at h; simp at h

theorem idCountE_error {l : List PSM} {e : RunError}
    (h : idCountE l = .error e) : e = .typeError := by
  unfold idCountE at h
  cases hr : idFlagsE l with
  | error e' => rw [hr] at h; simp at h; exact h ▸ idFlagsE_error hr
  | ok bs => rw [hr] at h; simp at h

theorem maskFilter_map_eq_filter (f : PSM → Bool) (l : List PSM) :
    maskFilter l (l.map f) = l.filter f := by
  induction l with
  | nil => rfl
  | cons p ps ih =>
    simp only [List.map_cons, maskFilter, List.filter_cons]
    cases hf : f p <;> simp [ih]

theorem mem_maskFilter {l : List PSM} {m : List Bool} {q : PSM}
    (h : q ∈ maskFilter l m) : q ∈ l := by
  induction l generalizing m with
  | nil => simp [maskFilter] at h
  | cons p ps ih =>
    cases m with
    | nil => exact h
    | cons b bs =>
      cases b with
      | false => exact List.mem_cons_of_mem _ (ih (by simpa [maskFilter] using h))
      | true =>
        simp only [maskFilter, if_pos] at h
        rcases List.mem_cons.mp h with h | h
        · exact h ▸ List.mem_cons_self _ _
        · exact List.mem_cons_of_mem _ (ih h)

theorem runToQvalue_trace (env : Env) (c : Config) (arg : Option (List PSM)) :
    ∀ e ∈ (runToQvalue env c arg).2,
      e = Event.writeFullConfig (c.output_path ++ ".full-config.json") ∨
      e = Event.calculateQvalues := by
  intro e he
  simp only [runToQvalue] at he
  split at he
  · simp at he; exact Or.inl he
  · simp only [List.mem_append, List.mem_singleton] at he
    rcases he with he | he
    · exact Or.inl (by simpa using he)
    · right
      split at he <;> simp_all

theorem runGenerators_trace (env : Env) (gens : List String) (psms : List PSM) :
    ∀ e ∈ (runGenerators env gens psms).2.2, isGenEvent e = true := by
  induction gens generalizing psms with
  | nil => intro e he; simp [runGenerators] at he
  | cons name rest ih =>
    intro e he
    unfold runGenerators at he
    split at he
    · exact ih psms e he
    · simp only [List.mem_cons] at he
      rcases he with he | he
      · rw [he]; rfl
      · exact ih _ e he

theorem provFrom_refl (l : List PSM) : ProvFrom l l := fun q hq => ⟨q, hq, rfl⟩

theorem provFrom_trans {a b c : List PSM} (h1 : ProvFrom a b) (h2 : ProvFrom b c) :
    ProvFrom a c := by
  intro q hq
  obtain ⟨p, hp, hpq⟩ := h2 q hq
  obtain ⟨r, hr, hrp⟩ := h1 p hp
  exact ⟨r, hr, hpq.trans hrp⟩

theorem provFrom_map {f : PSM → PSM}
    (hf : ∀ p, (f p).provenance_data = p.provenance_data) (l : List PSM) :
    ProvFrom l (l.map f) := by
  intro q hq
  obtain ⟨p, hp, rfl⟩ := List.mem_map.mp hq
  exact ⟨p, hp, hf p⟩

theorem provFrom_applySpectrumIds (l : List PSM) (ids : List (Option String)) :
    ProvFrom l (applySpectrumIds l ids) := by
  induction l generalizing ids with
  | nil => intro q hq; simp [applySpectrumIds] at hq
  | cons p ps ih =>
    cases ids with
    | nil => exact provFrom_refl _
    | cons i rest =>
      intro q hq
      simp only [applySpectrumIds, List.mem_cons] at hq
      rcases hq with rfl | hq
      · exact ⟨p, List.mem_cons_self _ _, rfl⟩
      · obtain ⟨r, hr, hqr⟩ := ih rest q hq
        exact ⟨r, List.mem_cons_of_mem _ hr, hqr⟩

theorem provFrom_applyEngineOutput (l : List PSM) (ns : List NewScores) :
    ProvFrom l (applyEngineOutput l ns) := by
  induction l generalizing ns with
  | nil => intro q hq; simp [applyEngineOutput] at hq
  | cons p ps ih =>
    cases ns with
    | nil => exact provFrom_refl _
    | cons n rest =>
      intro q hq
      simp only [applyEngineOutput, List.mem_cons] at hq
      rcases hq with rfl | hq
      · exact ⟨p, List.mem_cons_self _ _, rfl⟩
      · obtain ⟨r, hr, hqr⟩ := ih rest q hq
        exact ⟨r, List.mem_cons_of_mem _ hr, hqr⟩

theorem provFrom_maskFilter (l : List PSM) (m : List Bool) :
    ProvFrom l (maskFilter l m) := fun q hq => ⟨q, mem_maskFilter hq, rfl⟩

theorem provFrom_modStage (env : Env) (l : List PSM) :
    ProvFrom l (modStage env l) := by
  intro q hq
  obtain ⟨p, hp, rfl⟩ := List.mem_map.mp hq
  exact ⟨p, hp, rfl⟩

theorem provFrom_usiStage (env : Env) (c : Config) (l : List PSM) :
    ProvFrom l (usiStage env c l) := by
  unfold usiStage
  split
  · intro q hq
    obtain ⟨p, hp, rfl⟩ := List.mem_map.mp hq
    exact ⟨p, hp, rfl⟩
  · exact provFrom_refl l

theorem provFrom_patternStage {env : Env} {c : Config} {l out : List PSM}
    (h : patternStage env c l = .ok out) : ProvFrom l out := by
  unfold patternStage at h
  split at h
  · injection h with h2; exact h2 ▸ provFrom_refl l
  · split at h
    · injection h with h2; exact h2 ▸ provFrom_refl l
    · split at h
      · cases h
      · injection h with h2
        exact h2 ▸ provFrom_applySpectrumIds l _

theorem provFrom_runGenerators (env : Env) (gens : List String) (l : List PSM) :
    ProvFrom l (runGenerators env gens l).1 := by
  induction gens generalizing l with
  | nil => exact provFrom_refl l
  | cons name rest ih =>
    unfold runGenerators
    dsimp only
    split
    · exact ih l
    · dsimp only
      refine provFrom_trans ?_ (ih _)
      intro q hq
      obtain ⟨p, hp, rfl⟩ := List.mem_map.mp hq
      exact ⟨p, hp, rfl⟩

theorem provFrom_snapshot {l : List PSM} {q : PSM} (h : q ∈ l.map snapshotProv) :
    ∃ p ∈ l, q.provenance_data = dictUpdate p.provenance_data (snapshotEntries p) := by
  obtain ⟨p, hp, rfl⟩ := List.mem_map.mp h
  exact ⟨p, hp, rfl⟩

theorem find_cons_true {α : Type} {k : String} {e : String × α} (l : List (String × α))
    (he : (e.1 == k) = true) :
    (e :: l).find? (fun x => x.1 == k) = some e :=
  List.find?_cons_of_pos l he

theorem find_cons_false {α : Type} {k : String} {e : String × α} (l : List (String × α))
    (he : (e.1 == k) = false) :
    (e :: l).find? (fun x => x.1 == k) = l.find? (fun x => x.1 == k) :=
  List.find?_cons_of_neg l (by simp [he])

theorem find_map_set {α : Type} (k : String) (v : α) :
    ∀ l : List (String × α), l.any (fun e => e.1 == k) = true →
      (l.map (fun e => if e.1 == k then (k, v) else e)).find? (fun x => x.1 == k) =
        some (k, v) := by
  intro l hany
  induction l with
  | nil => simp at hany
  | cons e es ih =>
    simp only [List.any_cons, Bool.or_eq_true] at hany
    simp only [List.map_cons]
    cases he : (e.1 == k) with
    | true =>
      rw [if_pos rfl]
      exact find_cons_true _ (by simp)
    | false =>
      rw [if_neg (by simp), find_cons_false _ he]
      exact ih (hany.resolve_left (by simp [he]))

theorem find_append_none {α : Type} {k : String} {l : List (String × α)}
    (h : l.any (fun e => e.1 == k) = false) (tail : List (String × α)) :
    (l ++ tail).find? (fun x => x.1 == k) = tail.find? (fun x => x.1 == k) := by
  induction l with
  | nil => rfl
  | cons e es ih =>
    cases he : (e.1 == k) with
    | true => rw [List.any_cons, he] at h; simp at h
    | false =>
      rw [List.cons_append, find_cons_false _ he]
      apply ih
      rw [List.any_cons, he] at h
      simpa using h

theorem dictGet_dictSet_self {α : Type} (l : List (String × α)) (k : String) (v : α) :
    dictGet (dictSet l k v) k = some v := by
  unfold dictSet dictGet
  split
  · rw [find_map_set k v l (by assumption)]
    rfl
  · next hany =>
    rw [Bool.not_eq_true] at hany
    rw [find_append_none hany [(k, v)], find_cons_true _ (by simp)]
    rfl

theorem find_map_ne {α : Type} {k k' : String} (v : α) (h : (k' == k) = false) :
    ∀ l : List (String × α),
      (l.map (fun e => if e.1 == k' then (k', v) else e)).find? (fun x => x.1 == k) =
        l.find? (fun x => x.1 == k) := by
  intro l
  induction l with
  | nil => rfl
  | cons e es ih =>
    simp only [List.map_cons]
    cases he : (e.1 == k') with
    | true =>
      have h1 : e.1 = k' := by simpa using he
      have h2 : (e.1 == k) = false := by rw [h1]; exact h
      rw [if_pos rfl, find_cons_false _ h, find_cons_false _ h2]
      exact ih
    | false =>
      rw [if_neg (by simp)]
      cases hk : (e.1 == k) with
      | true => rw [find_cons_true _ hk, find_cons_true _ hk]
      | false =>
        rw [find_cons_false _ hk, find_cons_false _ hk]
        exact ih

theorem dictGet_dictSet_ne {α : Type} (l : List (String × α)) {k k' : String} (v : α)
    (h : (k' == k) = false) : dictGet (dictSet l k' v) k = dictGet l k := by
  unfold dictSet dictGet
  split
  · rw [find_map_ne v h l]
  · rw [List.find?_append]
    cases hf : l.find? (fun x => x.1 == k) with
    | some e => rfl
    | none =>
      rw [find_cons_false _ h]
      rfl

theorem dictGet_snapshot (p : PSM) :
    dictGet (dictUpdate p.provenance_data (snapshotEntries p)) "before_rescoring_score" =
        some (ProvValue.num p.score) ∧
      dictGet (dictUpdate p.provenance_data (snapshotEntries p)) "before_rescoring_qvalue" =
        some (ProvValue.num p.qvalue) ∧
      dictGet (dictUpdate p.provenance_data (snapshotEntries p)) "before_rescoring_pep" =
        some (ProvValue.num p.pep) ∧
      dictGet (dictUpdate p.provenance_data (snapshotEntries p)) "before_rescoring_rank" =
        some (ProvValue.int p.rank) := by
  unfold dictUpdate snapshotEntries
  simp only [List.foldl_cons, List.foldl_nil]
  refine ⟨?_, ?_, ?_, ?_⟩
  · rw [dictGet_dictSet_ne _ _ (by decide), dictGet_dictSet_ne _ _ (by decide),
      dictGet_dictSet_ne _ _ (by decide), dictGet_dictSet_self]
  · rw [dictGet_dictSet_ne _ _ (by decide), dictGet_dictSet_ne _ _ (by decide),
      dictGet_dictSet_self]
  · rw [dictGet_dictSet_ne _ _ (by decide), dictGet_dictSet_self]
  · rw [dictGet_dictSet_self]

theorem toFilterEvent_classify {e : Event} (h : isToFilterEvent e = true) :
    isEngineEvent e = false ∧ isCompareEvent e = false ∧ isTsvEvent e = false ∧
      isWarningEvent e = false := by
  cases e <;> simp_all [isToFilterEvent, isEngineEvent, isCompareEvent, isTsvEvent,
    isWarningEvent]

theorem runToFilter_trace (env : Env) (c : Config) (arg : Option (List PSM)) :
    ∀ e ∈ (runToFilter env c arg).2, isToFilterEvent e = true := by
  have hq : ∀ e ∈ (runToQvalue env c arg).2, isToFilterEvent e = true := by
    intro e he
    rcases runToQvalue_trace env c arg e he with h | h <;> simp [h, isToFilterEvent]
  intro e he
  simp only [runToFilter] at he
  split at he
  next e' tr heq =>
    exact hq e (by rw [heq]; exact he)
  next psms2 tr heq =>
    split at he
    · exact hq e (by rw [heq]; exact he)
    · split at he
      · simp only [List.mem_append, List.mem_cons, List.mem_singleton,
          List.not_mem_nil, or_false] at he
        rcases he with he | he | he
        · exact hq e (by rw [heq]; exact he)
        · simp [he, isToFilterEvent]
        · simp [he, isToFilterEvent]
      · simp only [List.mem_append, List.mem_cons, List.mem_singleton,
          List.not_mem_nil, or_false] at he
        rcases he with ((he | he | he) | he) | he
        · exact hq e (by rw [heq]; exact he)
        · simp [he, isToFilterEvent]
        · simp [he, isToFilterEvent]
        · split at he
          · simp only [List.mem_singleton] at he
            simp [he, isToFilterEvent]
          · simp at he
        · have := runGenerators_trace env c.feature_generators _ e he
          cases e <;> simp_all [isGenEvent, isToFilterEvent]

theorem engineDispatch_events (env : Env) (c : Config) (psms : List PSM) :
    (engineDispatch env c psms).2 = [Event.runPercolator] ∨
    (engineDispatch env c psms).2 = [Event.runMokapot] ∨
    (engineDispatch env c psms).2 = [Event.infoNoKnownEngine] := by
  unfold engineDispatch
  split
  · exact Or.inl rfl
  · split
    · exact Or.inr (Or.inl rfl)
    · exact Or.inr (Or.inr rfl)

theorem filterStage_events_warning (reg : List (String × Finset String)) (psms : List PSM) :
    ∀ e ∈ (filterStage reg psms).2, isWarningEvent e = true := by
  unfold filterStage
  dsimp only
  split
  · intro e he
    simp only [List.mem_singleton] at he
    simp [he, isWarningEvent]
  · intro e he
    simp at he

theorem filterStage_events_pos (reg : List (String × Finset String)) (psms : List PSM)
    (h : removedCountOf (unionRegistry reg) psms ≠ 0) :
    (filterStage reg psms).2 =
      [Event.filterWarning (removedCountOf (unionRegistry reg) psms)
        (missingOf (unionRegistry reg) psms)] := by
  unfold filterStage
  dsimp only
  rw [if_pos (Nat.pos_of_ne_zero h)]

theorem runFromFilter_trace_eq (env : Env) (c : Config) (st : MidState) (tr : List Event) :
    ∃ tail,
      (runFromFilter env c st tr).2 =
        tr ++ (filterStage (regOf st) st.psms).2 ++
          Event.writeFeatureNames (c.output_path ++ ".feature_names.tsv") :: tail ∧
      (∀ e ∈ tail, isWarningEvent e = false) := by
  unfold runFromFilter
  dsimp only
  split
  · refine ⟨(if c.rename_to_usi then [Event.renameToUsi] else []) ++
      [Event.writePinFile (c.output_path ++ ".pin") (unionRegistry (regOf st))], ?_, ?_⟩
    · simp [List.append_assoc]
    · intro e he
      simp only [List.mem_append, List.mem_singleton] at he
      rcases he with he | he
      · split at he
        · simp only [List.mem_singleton] at he
          simp [he, isWarningEvent]
        · simp at he
      · simp [he, isWarningEvent]
  · have hdisp : ∀ e ∈ (engineDispatch env c
        (usiStage env c (filterStage (regOf st) st.psms).1)).2, isWarningEvent e = false := by
      intro e he
      rcases engineDispatch_events env c
          (usiStage env c (filterStage (regOf st) st.psms).1) with h | h | h <;>
        rw [h] at he <;> simp only [List.mem_singleton] at he <;>
        simp [he, isWarningEvent]
    split
    next e' heq =>
      refine ⟨(if c.rename_to_usi then [Event.renameToUsi] else []) ++
        (engineDispatch env c (usiStage env c (filterStage (regOf st) st.psms).1)).2, ?_, ?_⟩
      · simp [List.append_assoc]
      · intro e he
        simp only [List.mem_append] at he
        rcases he with he | he
        · split at he
          · simp only [List.mem_singleton] at he
            simp [he, isWarningEvent]
          · simp at he
        · exact hdisp e he
    next idAfter heq =>
      refine ⟨(if c.rename_to_usi then [Event.renameToUsi] else []) ++
        (engineDispatch env c (usiStage env c (filterStage (regOf st) st.psms).1)).2 ++
        [Event.compareResults st.idBefore idAfter,
         Event.writePsmsTsv (c.output_path ++ ".psms.tsv")], ?_, ?_⟩
      · simp [List.append_assoc]
      · intro e he
        simp only [List.mem_append, List.mem_cons, List.mem_singleton,
          List.not_mem_nil, or_false] at he
        rcases he with (he | he) | he | he
        · split at he
          · simp only [List.mem_singleton] at he
            simp [he, isWarningEvent]
          · simp at he
        · exact hdisp e he
        · simp [he, isWarningEvent]
        · simp [he, isWarningEvent]

theorem decoyStage_nil (env : Env) (c : Config) : decoyStage env c [] = [] := by
  unfold decoyStage
  split
  · rfl
  · split <;> rfl

theorem decoyStage_length (env : Env) (c : Config) (psms : List PSM) :
    (decoyStage env c psms).length = psms.length := by
  unfold decoyStage
  split
  · rfl
  · split
    · rfl
    · simp

theorem applySpectrumIds_length (l : List PSM) (ids : List (Option String)) :
    (applySpectrumIds l ids).length = l.length := by
  induction l generalizing ids with
  | nil => cases ids <;> rfl
  | cons p ps ih =>
    cases ids with
    | nil => rfl
    | cons i rest => simp [applySpectrumIds, ih]

theorem applyEngineOutput_length (l : List PSM) (ns : List NewScores) :
    (applyEngineOutput l ns).length = l.length := by
  induction l generalizing ns with
  | nil => cases ns <;> rfl
  | cons p ps ih =>
    cases ns with
    | nil => rfl
    | cons n rest => simp [applyEngineOutput, ih]

theorem runGenerators_length (env : Env) (gens : List String) (l : List PSM) :
    (runGenerators env gens l).1.length = l.length := by
  induction gens generalizing l with
  | nil => rfl
  | cons name rest ih =>
    unfold runGenerators
    dsimp only
    split
    · exact ih l
    · dsimp only
      rw [ih]
      simp

theorem patternStage_length {env : Env} {c : Config} {l out : List PSM}
    (h : patternStage env c l = .ok out) : out.length = l.length := by
  unfold patternStage at h
  split at h
  · injection h with h2; rw [← h2]
  · split at h
    · injection h with h2; rw [← h2]
    · split at h
      · cases h
      · injection h with h2; rw [← h2, applySpectrumIds_length]

theorem usiStage_length (env : Env) (c : Config) (l : List PSM) :
    (usiStage env c l).length = l.length := by
  unfold usiStage
  split
  · simp
  · rfl

theorem filterStage_fst (reg : List (String × Finset String)) (psms : List PSM) :
    (filterStage reg psms).1 =
      psms.filter (fun p => decide (keySet p = unionRegistry reg)) := by
  unfold filterStage featureMask
  dsimp only
  rw [maskFilter_map_eq_filter]

/-! ### The claims -/

/-- C10: the orchestrator's entry point requires a non-empty collection:
for every non-empty collection the decoy-percentage computation is
well-defined (it cannot raise `ZeroDivisionError`), while an empty
collection reaches the division-by-zero branch of line 52 — the run stops
with `ZeroDivisionError` right after writing the config file, before the
missing-decoys `ConfigurationError` of lines 54-58 could be raised. -/
theorem c10_empty_collection_division (env : Env) (c : Config) (arg : Option (List PSM)) :
    (resolvePsmList env.filePsms arg = [] →
      rescoreRun env c arg =
        (.error RunError.zeroDivisionError,
         [Event.writeFullConfig (c.output_path ++ ".full-config.json")])) ∧
    (resolvePsmList env.filePsms arg ≠ [] →
      decoyCheck (decoyStage env c (resolvePsmList env.filePsms arg)) ≠
        .error RunError.zeroDivisionError) := by
  constructor
  · intro h
    have h2 : decoyCheck (decoyStage env c (resolvePsmList env.filePsms arg)) =
        .error RunError.zeroDivisionError := by
      rw [h, decoyStage_nil]
      rfl
    simp [rescoreRun, runToFilter, runToQvalue, h2]
  · intro h hc
    unfold decoyCheck at hc
    rw [if_neg (by rw [decoyStage_length]; simpa [List.length_eq_zero] using h)] at hc
    split at hc <;> simp_all

/-- Witness for C10 at a concrete empty and a concrete non-empty run. -/
theorem c10_witness :
    rescoreRun envW cW (some []) =
      (.error RunError.zeroDivisionError,
       [Event.writeFullConfig (cW.output_path ++ ".full-config.json")]) ∧
    decoyCheck (decoyStage envW cW (resolvePsmList envW.filePsms (some [pA, pB]))) ≠
      .error RunError.zeroDivisionError :=
  ⟨(c10_empty_collection_division envW cW (some [])).1 (by decide),
   (c10_empty_collection_division envW cW (some [pA, pB])).2 (by decide)⟩

/-- C4 counterexample: on an empty collection, zero PSMs are marked decoy,
yet the orchestrator raises `ZeroDivisionError` (line 52), not the
`MS2RescoreConfigurationError` the claim promises for every collection with
zero decoys. -/
theorem c4_counterexample :
    (decoyStage envW cW (resolvePsmList envW.filePsms (some []))).all
        (fun p => !p.is_decoy) = true ∧
      (rescoreRun envW cW (some [])).1 = .error RunError.zeroDivisionError ∧
      (rescoreRun envW cW (some [])).1 ≠
        .error (.ms2RescoreConfigurationError noDecoysMsg) := by decide

/-- C4 (amended): for every collection that is non-empty after decoy
labelling, if zero PSMs have `is_decoy` set, the run stops with the fatal
`MS2RescoreConfigurationError` right after writing the config file — in
particular before q-value computation and every later stage. -/
theorem c4_no_decoys_error (env : Env) (c : Config) (arg : Option (List PSM))
    (hne : decoyStage env c (resolvePsmList env.filePsms arg) ≠ [])
    (hnd : (decoyStage env c (resolvePsmList env.filePsms arg)).any
      (fun p => p.is_decoy) = false) :
    rescoreRun env c arg =
      (.error (RunError.ms2RescoreConfigurationError noDecoysMsg),
       [Event.writeFullConfig (c.output_path ++ ".full-config.json")]) := by
  have hd : decoyCheck (decoyStage env c (resolvePsmList env.filePsms arg)) =
      .error (.ms2RescoreConfigurationError noDecoysMsg) := by
    unfold decoyCheck
    rw [if_neg (by simpa [List.length_eq_zero] using hne), if_neg (by simp [hnd])]
  simp [rescoreRun, runToFilter, runToQvalue, hd]

/-- Witness for C4 (amended): a singleton target-only collection. -/
theorem c4_no_decoys_error_witness :
    rescoreRun envW cW (some [pA]) =
      (.error (RunError.ms2RescoreConfigurationError noDecoysMsg),
       [Event.writeFullConfig (cW.output_path ++ ".full-config.json")]) :=
  c4_no_decoys_error envW cW (some [pA]) (by decide) (by decide)

/-- C6: the q-value stage recomputes q-values exactly when at least one is
missing.  When no q-value is missing the stage returns the collection
unchanged and logs no recomputation; when one is missing it invokes
`calculate_qvalues` (with `reverse = not lower_score_is_better`) and writes
its output into the collection. -/
theorem c6_qvalue_recompute_iff_missing (env : Env) (c : Config) (arg : Option (List PSM))
    (hd : decoyCheck (decoyStage env c (resolvePsmList env.filePsms arg)) = .ok ()) :
    ((decoyStage env c (resolvePsmList env.filePsms arg)).any
        (fun p => p.qvalue.isNone) = false →
      runToQvalue env c arg =
        (.ok (decoyStage env c (resolvePsmList env.filePsms arg)),
         [Event.writeFullConfig (c.output_path ++ ".full-config.json")])) ∧
    ((decoyStage env c (resolvePsmList env.filePsms arg)).any
        (fun p => p.qvalue.isNone) = true →
      runToQvalue env c arg =
        (.ok (applyQvalues (decoyStage env c (resolvePsmList env.filePsms arg))
          (env.newQvalues (!c.lower_score_is_better)
            (decoyStage env c (resolvePsmList env.filePsms arg)))),
         [Event.writeFullConfig (c.output_path ++ ".full-config.json"),
          Event.calculateQvalues])) := by
  constructor <;> intro h <;> simp [runToQvalue, qvalueStage, hd, h]

/-- Witness for C6: a concrete run where every q-value is present — the
stage leaves the collection unchanged. -/
theorem c6_witness :
    runToQvalue envW cW (some [pA, pB]) =
      (.ok (decoyStage envW cW (resolvePsmList envW.filePsms (some [pA, pB]))),
       [Event.writeFullConfig (cW.output_path ++ ".full-config.json")]) :=
  (c6_qvalue_recompute_iff_missing envW cW (some [pA, pB]) (by decide)).1 (by decide)

/-- C1: after the feature-completeness filter, every surviving PSM's
feature-key set equals exactly the union of the feature names contributed
by the generators that ran plus the pre-existing file feature names
(the reserved `"psm_file"` registry entry); every PSM whose key set
differs (missing or extra keys) is removed; the survivors keep their
relative order (the filtered list is a sublist of the input). -/
theorem c1_feature_filter_invariant (env : Env) (c : Config) (arg : Option (List PSM))
    (st : MidState) (tr : List Event) (_h : runToFilter env c arg = (.ok st, tr)) :
    ((filterStage (regOf st) st.psms).1.Sublist st.psms) ∧
    (∀ p ∈ (filterStage (regOf st) st.psms).1,
      keySet p = st.preNames ∪ unionRegistry st.genReg) ∧
    (∀ p ∈ st.psms, keySet p = st.preNames ∪ unionRegistry st.genReg →
      p ∈ (filterStage (regOf st) st.psms).1) ∧
    (∀ p ∈ st.psms, keySet p ≠ st.preNames ∪ unionRegistry st.genReg →
      p ∉ (filterStage (regOf st) st.psms).1) ∧
    unionRegistry (regOf st) = st.preNames ∪ unionRegistry st.genReg := by
  have hu : unionRegistry (regOf st) = st.preNames ∪ unionRegistry st.genReg := rfl
  have hf := filterStage_fst (regOf st) st.psms
  refine ⟨?_, ?_, ?_, ?_, hu⟩
  · rw [hf]
    exact List.filter_sublist _
  · intro p hp
    rw [hf] at hp
    have h2 := (List.mem_filter.mp hp).2
    simpa [hu] using h2
  · intro p hp hk
    rw [hf]
    exact List.mem_filter.mpr ⟨hp, by simp [hu, hk]⟩
  · intro p _ hk hmem
    rw [hf] at hmem
    have h2 := (List.mem_filter.mp hmem).2
    simp only [decide_eq_true_eq] at h2
    exact hk (hu ▸ h2)

/-- Witness for C1 at a concrete run whose generator annotates every PSM. -/
theorem c1_witness :
    ((filterStage (regOf (midOf (runToFilter envW cW (some [pA, pB]))))
        (midOf (runToFilter envW cW (some [pA, pB]))).psms).1.Sublist
      (midOf (runToFilter envW cW (some [pA, pB]))).psms) ∧
    (∀ p ∈ (filterStage (regOf (midOf (runToFilter envW cW (some [pA, pB]))))
        (midOf (runToFilter envW cW (some [pA, pB]))).psms).1,
      keySet p = (midOf (runToFilter envW cW (some [pA, pB]))).preNames ∪
        unionRegistry (midOf (runToFilter envW cW (some [pA, pB]))).genReg) ∧
    (∀ p ∈ (midOf (runToFilter envW cW (some [pA, pB]))).psms,
      keySet p = (midOf (runToFilter envW cW (some [pA, pB]))).preNames ∪
          unionRegistry (midOf (runToFilter envW cW (some [pA, pB]))).genReg →
        p ∈ (filterStage (regOf (midOf (runToFilter envW cW (some [pA, pB]))))
          (midOf (runToFilter envW cW (some [pA, pB]))).psms).1) ∧
    (∀ p ∈ (midOf (runToFilter envW cW (some [pA, pB]))).psms,
      keySet p ≠ (midOf (runToFilter envW cW (some [pA, pB]))).preNames ∪
          unionRegistry (midOf (runToFilter envW cW (some [pA, pB]))).genReg →
        p ∉ (filterStage (regOf (midOf (runToFilter envW cW (some [pA, pB]))))
          (midOf (runToFilter envW cW (some [pA, pB]))).psms).1) ∧
    unionRegistry (regOf (midOf (runToFilter envW cW (some [pA, pB])))) =
      (midOf (runToFilter envW cW (some [pA, pB]))).preNames ∪
        unionRegistry (midOf (runToFilter envW cW (some [pA, pB]))).genReg :=
  c1_feature_filter_invariant envW cW (some [pA, pB])
    (midOf (runToFilter envW cW (some [pA, pB])))
    ((runToFilter envW cW (some [pA, pB])).2) (by decide)

/-- C2 counterexample: a run in which feature filtering removes *all* PSMs
(2 of 2; the generator declares feature `fx` but annotates nobody) does not
raise any fatal error — the run continues with the empty collection and
returns successfully, after logging the filter warning. -/
theorem c2_counterexample :
    (rescoreRun envB cW (some [pA, pB])).1 = .ok [] ∧
    Event.filterWarning 2 {"fx"} ∈ (rescoreRun envB cW (some [pA, pB])).2 ∧
    removedCountOf
        (unionRegistry (regOf (midOf (runToFilter envB cW (some [pA, pB])))))
        (midOf (runToFilter envB cW (some [pA, pB]))).psms = 2 := by decide

/-- C2 (amended): feature-completeness filtering is never fatal.  When it
removes at least one PSM it logs the warning with the removed count and the
missing feature names; the run always proceeds to the following stage
(writing the feature-names file), even when every PSM was removed, and the
only error any later stage can raise is the unrelated `TypeError` of the
post-rescoring count. -/
theorem c2_filter_never_fatal (env : Env) (c : Config) (st : MidState) (tr : List Event) :
    (∀ e, (runFromFilter env c st tr).1 = .error e → e = RunError.typeError) ∧
    (removedCountOf (unionRegistry (regOf st)) st.psms ≠ 0 →
      Event.filterWarning (removedCountOf (unionRegistry (regOf st)) st.psms)
          (missingOf (unionRegistry (regOf st)) st.psms) ∈ (runFromFilter env c st tr).2) ∧
    Event.writeFeatureNames (c.output_path ++ ".feature_names.tsv") ∈
      (runFromFilter env c st tr).2 := by
  obtain ⟨tail, htr, -⟩ := runFromFilter_trace_eq env c st tr
  refine ⟨?_, ?_, ?_⟩
  · intro e he
    simp only [runFromFilter] at he
    split at he
    · simp at he
    · split at he
      next e' heq =>
        have h2 : e' = e := by simpa using he
        rw [← h2]
        exact idCountE_error heq
      next => simp at he
  · intro h
    rw [htr, filterStage_events_pos _ _ h]
    simp
  · rw [htr]
    simp

/-- Witness for C2 (amended): the run proceeds past filtering. -/
theorem c2_filter_never_fatal_witness :
    Event.writeFeatureNames (cW.output_path ++ ".feature_names.tsv") ∈
      (runFromFilter envW cW ⟨0, [], ∅, []⟩ []).2 :=
  (c2_filter_never_fatal envW cW ⟨0, [], ∅, []⟩ []).2.2

theorem runFromFilter_pin (env : Env) (c : Config) (st : MidState) (tr : List Event)
    (he : c.rescoring_engine = []) :
    runFromFilter env c st tr =
      (.ok (usiStage env c (filterStage (regOf st) st.psms).1),
       tr ++ (filterStage (regOf st) st.psms).2 ++
         [Event.writeFeatureNames (c.output_path ++ ".feature_names.tsv")] ++
         (if c.rename_to_usi then [Event.renameToUsi] else []) ++
         [Event.writePinFile (c.output_path ++ ".pin") (unionRegistry (regOf st))]) := by
  unfold runFromFilter
  dsimp only
  rw [if_pos (by simp [he])]

theorem runFromFilter_engine_trace (env : Env) (c : Config) (st : MidState) (tr : List Event)
    (hne : c.rescoring_engine.isEmpty = false) :
    ∃ tail2,
      (runFromFilter env c st tr).2 =
        tr ++ (filterStage (regOf st) st.psms).2 ++
          [Event.writeFeatureNames (c.output_path ++ ".feature_names.tsv")] ++
          (if c.rename_to_usi then [Event.renameToUsi] else []) ++
          (engineDispatch env c (usiStage env c (filterStage (regOf st) st.psms).1)).2 ++
          tail2 ∧
      (∀ e ∈ tail2, isCompareEvent e = true ∨ isTsvEvent e = true) := by
  unfold runFromFilter
  dsimp only
  rw [if_neg (by simp [hne])]
  split
  next e' heq =>
    refine ⟨[], by simp [List.append_assoc], by simp⟩
  next idAfter heq =>
    refine ⟨[Event.compareResults st.idBefore idAfter,
             Event.writePsmsTsv (c.output_path ++ ".psms.tsv")],
      by simp [List.append_assoc], ?_⟩
    intro e he2
    simp only [List.mem_cons, List.mem_singleton, List.not_mem_nil, or_false] at he2
    rcases he2 with rfl | rfl
    · exact Or.inl rfl
    · exact Or.inr rfl

/-- C7: with an empty `rescoring_engine` configuration, the orchestrator
writes the filtered (and possibly USI-renamed) collection together with the
union of declared feature names to `<output_path>.pin` in percolator
format, and returns without invoking any engine adapter, without comparing
before/after counts and without writing the final `.psms.tsv` table. -/
theorem c7_no_engine_pin_export (env : Env) (c : Config) (arg : Option (List PSM))
    (st : MidState) (tr : List Event) (h : runToFilter env c arg = (.ok st, tr))
    (he : c.rescoring_engine = []) :
    (rescoreRun env c arg).1 =
      .ok (usiStage env c (filterStage (regOf st) st.psms).1) ∧
    Event.writePinFile (c.output_path ++ ".pin") (unionRegistry (regOf st)) ∈
      (rescoreRun env c arg).2 ∧
    (rescoreRun env c arg).2.all
      (fun e => !(isEngineEvent e || isCompareEvent e || isTsvEvent e)) = true := by
  rw [rescoreRun_eq_runFromFilter h, runFromFilter_pin env c st tr he]
  refine ⟨rfl, by simp, ?_⟩
  rw [List.all_eq_true]
  intro e he2
  simp only [List.mem_append] at he2
  rcases he2 with ((((he2 | he2) | he2) | he2) | he2)
  · have ht := runToFilter_trace env c arg e (by rw [h]; exact he2)
    have hc := toFilterEvent_classify ht
    simp [hc.1, hc.2.1, hc.2.2.1]
  · have hw := filterStage_events_warning (regOf st) st.psms e he2
    cases e <;> simp_all [isWarningEvent, isEngineEvent, isCompareEvent, isTsvEvent]
  · simp only [List.mem_singleton] at he2
    simp [he2, isEngineEvent, isCompareEvent, isTsvEvent]
  · split at he2
    · simp only [List.mem_singleton] at he2
      simp [he2, isEngineEvent, isCompareEvent, isTsvEvent]
    · simp at he2
  · simp only [List.mem_singleton] at he2
    simp [he2, isEngineEvent, isCompareEvent, isTsvEvent]

/-- Witness for C7: a concrete engine-less run ends at the PIN export. -/
theorem c7_witness :
    (rescoreRun envW cW (some [pA, pB])).1 =
      .ok (usiStage envW cW
        (filterStage (regOf (midOf (runToFilter envW cW (some [pA, pB]))))
          (midOf (runToFilter envW cW (some [pA, pB]))).psms).1) ∧
    Event.writePinFile (cW.output_path ++ ".pin")
        (unionRegistry (regOf (midOf (runToFilter envW cW (some [pA, pB]))))) ∈
      (rescoreRun envW cW (some [pA, pB])).2 ∧
    (rescoreRun envW cW (some [pA, pB])).2.all
      (fun e => !(isEngineEvent e || isCompareEvent e || isTsvEvent e)) = true :=
  c7_no_engine_pin_export envW cW (some [pA, pB])
    (midOf (runToFilter envW cW (some [pA, pB])))
    ((runToFilter envW cW (some [pA, pB])).2) (by decide) rfl

/-- C8 counterexample: with both `percolator` and `mokapot` configured, the
orchestrator silently dispatches to percolator: the trace holds the
percolator invocation and not a single `logger.warning` call — the claimed
ambiguity warning does not exist. -/
theorem c8_counterexample :
    Event.runPercolator ∈ (rescoreRun envW cBoth (some [pA, pB])).2 ∧
    Event.runMokapot ∉ (rescoreRun envW cBoth (some [pA, pB])).2 ∧
    (rescoreRun envW cBoth (some [pA, pB])).2.all (fun e => !isWarningEvent e) = true ∧
    cBoth.rescoring_engine = ["percolator", "mokapot"] := by decide

theorem mem_engine_part {env : Env} {c : Config} {arg : Option (List PSM)}
    {st : MidState} {tr : List Event} (h : runToFilter env c arg = (.ok st, tr))
    (hne : c.rescoring_engine.isEmpty = false) (ev : Event)
    (h1 : isToFilterEvent ev = false) (h2 : isWarningEvent ev = false)
    (h3 : isCompareEvent ev = false) (h4 : isTsvEvent ev = false)
    (h5 : ev ≠ Event.renameToUsi) (h6 : ∀ s, ev ≠ Event.writeFeatureNames s)
    (hmem : ev ∈ (runFromFilter env c st tr).2) :
    ev ∈ (engineDispatch env c (usiStage env c (filterStage (regOf st) st.psms).1)).2 := by
  obtain ⟨tail2, htr, htail⟩ := runFromFilter_engine_trace env c st tr hne
  rw [htr] at hmem
  simp only [List.mem_append, List.mem_singleton] at hmem
  rcases hmem with ((((hmem | hmem) | hmem) | hmem) | hmem) | hmem
  · have := runToFilter_trace env c arg ev (by rw [h]; exact hmem)
    rw [h1] at this
    cases this
  · have := filterStage_events_warning (regOf st) st.psms ev hmem
    rw [h2] at this
    cases this
  · exact absurd hmem (h6 _)
  · split at hmem
    · simp only [List.mem_singleton] at hmem
      exact absurd hmem h5
    · simp at hmem
  · exact hmem
  · rcases htail ev hmem with hc | hc
    · rw [h3] at hc; cases hc
    · rw [h4] at hc; cases hc

/-- C8 (amended): when the `rescoring_engine` configuration is non-empty,
dispatch is deterministic by fixed precedence — percolator whenever its key
is present, mokapot only when percolator's key is absent, an info message
and no rescoring when neither key is present, other engines ignored — and
the orchestrator emits *no* warning about the ambiguity: the run's warning
events are exactly the feature-filter warnings. -/
theorem c8_engine_precedence (env : Env) (c : Config) (arg : Option (List PSM))
    (st : MidState) (tr : List Event) (h : runToFilter env c arg = (.ok st, tr))
    (hne : c.rescoring_engine.isEmpty = false) :
    (c.rescoring_engine.contains "percolator" = true →
      Event.runPercolator ∈ (rescoreRun env c arg).2 ∧
      Event.runMokapot ∉ (rescoreRun env c arg).2) ∧
    (c.rescoring_engine.contains "percolator" = false →
      c.rescoring_engine.contains "mokapot" = true →
      Event.runMokapot ∈ (rescoreRun env c arg).2 ∧
      Event.runPercolator ∉ (rescoreRun env c arg).2) ∧
    (c.rescoring_engine.contains "percolator" = false →
      c.rescoring_engine.contains "mokapot" = false →
      Event.infoNoKnownEngine ∈ (rescoreRun env c arg).2 ∧
      Event.runPercolator ∉ (rescoreRun env c arg).2 ∧
      Event.runMokapot ∉ (rescoreRun env c arg).2) ∧
    (rescoreRun env c arg).2.filter isWarningEvent =
      (filterStage (regOf st) st.psms).2 := by
  rw [rescoreRun_eq_runFromFilter h]
  obtain ⟨tail2, htr, htail⟩ := runFromFilter_engine_trace env c st tr hne
  refine ⟨?_, ?_, ?_, ?_⟩
  · intro hp
    have hdisp : (engineDispatch env c
        (usiStage env c (filterStage (regOf st) st.psms).1)).2 = [Event.runPercolator] := by
      unfold engineDispatch
      rw [if_pos hp]
    constructor
    · rw [htr, hdisp]
      simp
    · intro hmem
      have := mem_engine_part h hne Event.runMokapot rfl rfl rfl rfl (by simp) (by simp) hmem
      rw [hdisp] at this
      simp at this
  · intro hp hm
    have hp' : ¬(c.rescoring_engine.contains "percolator" = true) := by
      rw [hp]; simp
    have hdisp : (engineDispatch env c
        (usiStage env c (filterStage (regOf st) st.psms).1)).2 = [Event.runMokapot] := by
      unfold engineDispatch
      rw [if_neg hp', if_pos hm]
    constructor
    · rw [htr, hdisp]
      simp
    · intro hmem
      have := mem_engine_part h hne Event.runPercolator rfl rfl rfl rfl (by simp) (by simp) hmem
      rw [hdisp] at this
      simp at this
  · intro hp hm
    have hp' : ¬(c.rescoring_engine.contains "percolator" = true) := by
      rw [hp]; simp
    have hm' : ¬(c.rescoring_engine.contains "mokapot" = true) := by
      rw [hm]; simp
    have hdisp : (engineDispatch env c
        (usiStage env c (filterStage (regOf st) st.psms).1)).2 =
          [Event.infoNoKnownEngine] := by
      unfold engineDispatch
      rw [if_neg hp', if_neg hm']
    refine ⟨by rw [htr, hdisp]; simp, ?_, ?_⟩
    · intro hmem
      have := mem_engine_part h hne Event.runPercolator rfl rfl rfl rfl (by simp) (by simp) hmem
      rw [hdisp] at this
      simp at this
    · intro hmem
      have := mem_engine_part h hne Event.runMokapot rfl rfl rfl rfl (by simp) (by simp) hmem
      rw [hdisp] at this
      simp at this
  · rw [htr]
    simp only [List.filter_append]
    have t1 : tr.filter isWarningEvent = [] := by
      rw [List.filter_eq_nil_iff]
      intro e he
      have := toFilterEvent_classify (runToFilter_trace env c arg e (by rw [h]; exact he))
      simp [this.2.2.2]
    have t2 : (filterStage (regOf st) st.psms).2.filter isWarningEvent =
        (filterStage (regOf st) st.psms).2 := by
      rw [List.filter_eq_self]
      exact filterStage_events_warning (regOf st) st.psms
    have t3 : ([Event.writeFeatureNames (c.output_path ++ ".feature_names.tsv")]).filter
        isWarningEvent = [] := rfl
    have t4 : ((if c.rename_to_usi then [Event.renameToUsi] else [])).filter
        isWarningEvent = [] := by
      split <;> rfl
    have t5 : ((engineDispatch env c
        (usiStage env c (filterStage (regOf st) st.psms).1)).2).filter
        isWarningEvent = [] := by
      rcases engineDispatch_events env c
          (usiStage env c (filterStage (regOf st) st.psms).1) with hd | hd | hd <;>
        rw [hd] <;> rfl
    have t6 : tail2.filter isWarningEvent = [] := by
      rw [List.filter_eq_nil_iff]
      intro e he
      rcases htail e he with hc | hc <;> cases e <;> simp_all [isCompareEvent, isTsvEvent,
        isWarningEvent]
    rw [t1, t2, t3, t4, t5, t6]
    simp

/-- Witness for C8 (amended) at a concrete percolator-and-mokapot run. -/
theorem c8_engine_precedence_witness :
    Event.runPercolator ∈ (rescoreRun envW cBoth (some [pA, pB])).2 ∧
    Event.runMokapot ∉ (rescoreRun envW cBoth (some [pA, pB])).2 :=
  (c8_engine_precedence envW cBoth (some [pA, pB])
    (midOf (runToFilter envW cBoth (some [pA, pB])))
    ((runToFilter envW cBoth (some [pA, pB])).2) (by decide) (by decide)).1 (by decide)

theorem matchPsmIds_error {s : String → PyMatchResult} {i : String} {e : RunError}
    (h : matchPsmIds s i = .error e) : e = .ms2RescoreError patternMismatchMsg := by
  unfold matchPsmIds at h
  cases hs : s i <;> rw [hs] at h <;> first
    | (injection h with h2; exact h2.symm)
    | cases h

theorem matchPsmIds_fails {s : String → PyMatchResult} {i : String}
    (h : searchFails (s i) = true) :
    matchPsmIds s i = .error (.ms2RescoreError patternMismatchMsg) := by
  unfold matchPsmIds
  cases hs : s i <;> simp_all [searchFails]

theorem mapExcept_fails {α β : Type} {f : α → Except RunError β} {E : RunError}
    (hconst : ∀ a e, f a = .error e → e = E) :
    ∀ {l : List α}, (∃ a ∈ l, ∃ e, f a = .error e) → mapExcept f l = .error E := by
  intro l
  induction l with
  | nil => rintro ⟨a, ha, _⟩; simp at ha
  | cons x xs ih =>
    rintro ⟨a, ha, e, hae⟩
    unfold mapExcept
    cases hfx : f x with
    | error e' => simp [hconst x e' hfx]
    | ok b =>
      rcases List.mem_cons.mp ha with rfl | ha2
      · rw [hae] at hfx
        cases hfx
      · have h2 := ih ⟨a, ha2, e, hae⟩
        rw [h2]

theorem patternStage_fails {env : Env} {c : Config} {pat : String} {psms : List PSM}
    (h3 : c.psm_id_pattern = some pat) (h4 : (pat == "") = false)
    (hex : ∃ p ∈ psms, searchFails (env.search pat p.spectrum_id) = true) :
    patternStage env c psms = .error (.ms2RescoreError patternMismatchMsg) := by
  unfold patternStage
  rw [h3]
  dsimp only
  rw [if_neg (by simp [h4])]
  obtain ⟨p, hp, hfail⟩ := hex
  rw [mapExcept_fails (fun a e he => matchPsmIds_error he)
    ⟨p, hp, _, matchPsmIds_fails hfail⟩]

/-- C5: with a truthy `psm_id_pattern`, if for any single PSM the pattern
does not match with a capturing group (no match at all, or a pattern
without a capturing group), the whole run aborts with the fatal
`MS2RescoreError` of `_match_psm_ids` and no feature generator ever runs;
when the match succeeds on every PSM, each spectrum id is replaced by the
first capture group of its match. -/
theorem c5_pattern_mismatch_aborts (env : Env) (c : Config) (arg : Option (List PSM))
    (psms2 : List PSM) (n : Nat) (pat : String)
    (h1 : (runToQvalue env c arg).1 = .ok psms2)
    (h2 : idCountE psms2 = .ok n)
    (h3 : c.psm_id_pattern = some pat)
    (h4 : (pat == "") = false) :
    ((∃ p ∈ modStage env (psms2.map snapshotProv),
        searchFails (env.search pat p.spectrum_id) = true) →
      (rescoreRun env c arg).1 = .error (.ms2RescoreError patternMismatchMsg) ∧
      (rescoreRun env c arg).2.all (fun e => !isGenEvent e) = true) ∧
    (∀ ids, mapExcept (fun p => matchPsmIds (env.search pat) p.spectrum_id)
        (modStage env (psms2.map snapshotProv)) = .ok ids →
      patternStage env c (modStage env (psms2.map snapshotProv)) =
        .ok (applySpectrumIds (modStage env (psms2.map snapshotProv)) ids)) := by
  have hpair : runToQvalue env c arg = (.ok psms2, (runToQvalue env c arg).2) := by
    rw [← h1]
  constructor
  · intro hex
    have hpe := patternStage_fails h3 h4 hex
    have hrf : runToFilter env c arg =
        (.error (.ms2RescoreError patternMismatchMsg),
         (runToQvalue env c arg).2 ++ [Event.captureProvenance, Event.parseModifications]) := by
      unfold runToFilter
      rw [hpair]
      simp [h2, hpe]
    have hrr : rescoreRun env c arg =
        (.error (.ms2RescoreError patternMismatchMsg),
         (runToQvalue env c arg).2 ++ [Event.captureProvenance, Event.parseModifications]) := by
      unfold rescoreRun
      rw [hrf]
    rw [hrr]
    refine ⟨rfl, ?_⟩
    rw [List.all_eq_true]
    intro e he
    simp only [List.mem_append, List.mem_cons, List.mem_singleton,
      List.not_mem_nil, or_false] at he
    rcases he with he | he | he
    · rcases runToQvalue_trace env c arg e he with h5 | h5 <;> simp [h5, isGenEvent]
    · simp [he, isGenEvent]
    · simp [he, isGenEvent]
  · intro ids hids
    unfold patternStage
    rw [h3]
    dsimp only
    rw [if_neg (by simp [h4]), hids]

/-- Witness for C5: a pattern with no capturing group makes `match[1]`
raise for every PSM and the concrete run aborts before any generator. -/
theorem c5_witness :
    (rescoreRun envP cP (some [pA, pB])).1 =
      .error (.ms2RescoreError patternMismatchMsg) ∧
    (rescoreRun envP cP (some [pA, pB])).2.all (fun e => !isGenEvent e) = true :=
  (c5_pattern_mismatch_aborts envP cP (some [pA, pB]) [pA, pB] 1 "mzspec:(.+)"
    (by decide) (by decide) rfl (by decide)).1 (by decide)

theorem engineDispatch_length (env : Env) (c : Config) (psms : List PSM) :
    (engineDispatch env c psms).1.length = psms.length := by
  unfold engineDispatch
  split
  · simp [applyEngineOutput_length]
  · split
    · simp [applyEngineOutput_length]
    · rfl

/-- C9: the before-rescoring identified-PSM count is computed over the full
(post-q-value, pre-filter) collection, while the after-rescoring count is
computed over the feature-filtered collection; the logged comparison pairs
these two counts, so they range over different PSM sets whenever filtering
removed any PSM. -/
theorem c9_counts_different_collections (env : Env) (c : Config) (arg : Option (List PSM))
    (st : MidState) (tr : List Event) (h : runToFilter env c arg = (.ok st, tr))
    (hne : c.rescoring_engine.isEmpty = false) :
    (∃ psms2, (runToQvalue env c arg).1 = .ok psms2 ∧
      idCountE psms2 = .ok st.idBefore ∧ st.psms.length = psms2.length) ∧
    (∀ out, (rescoreRun env c arg).1 = .ok out →
      ∃ nAfter, idCountE out = .ok nAfter ∧
        Event.compareResults st.idBefore nAfter ∈ (rescoreRun env c arg).2 ∧
        out.length = (filterStage (regOf st) st.psms).1.length) := by
  constructor
  · unfold runToFilter at h
    split at h
    next e' tr' heq =>
      injection h with h1 h2
      cases h1
    next psms2 tr' heq =>
      split at h
      next e' heq2 =>
        injection h with h1 h2
        cases h1
      next nB heq2 =>
        dsimp only at h
        cases hps : patternStage env c (modStage env (List.map snapshotProv psms2)) with
        | error e3 =>
          rw [hps] at h
          dsimp only at h
          injection h with h1 h2
          cases h1
        | ok psms5 =>
          rw [hps] at h
          dsimp only at h
          injection h with h1 h2
          injection h1 with h1
          refine ⟨psms2, by rw [heq], ?_, ?_⟩
          · rw [← h1]
            exact heq2
          · rw [← h1]
            dsimp only
            rw [runGenerators_length, patternStage_length hps]
            simp [modStage]
  · intro out hout
    rw [rescoreRun_eq_runFromFilter h] at hout ⊢
    simp only [runFromFilter] at hout ⊢
    rw [if_neg (by simp [hne])] at hout ⊢
    split at hout
    next e' heq4 =>
      simp at hout
    next idAfter heq4 =>
      have hout2 : (engineDispatch env c
          (usiStage env c (filterStage (regOf st) st.psms).1)).1 = out := by
        simpa using hout
      refine ⟨idAfter, ?_, ?_, ?_⟩
      · rw [← hout2]
        exact heq4
      · simp
      · rw [← hout2, engineDispatch_length, usiStage_length]

/-- Witness for C9: a concrete percolator run in which filtering removes
nothing; both counts exist and the comparison event carries them. -/
theorem c9_witness :
    ∃ nAfter, idCountE (okPsms (rescoreRun envW cPerc (some [pA, pB])).1) = .ok nAfter ∧
      Event.compareResults
          (midOf (runToFilter envW cPerc (some [pA, pB]))).idBefore nAfter ∈
        (rescoreRun envW cPerc (some [pA, pB])).2 ∧
      (okPsms (rescoreRun envW cPerc (some [pA, pB])).1).length =
        (filterStage (regOf (midOf (runToFilter envW cPerc (some [pA, pB]))))
          (midOf (runToFilter envW cPerc (some [pA, pB]))).psms).1.length :=
  (c9_counts_different_collections envW cPerc (some [pA, pB])
      (midOf (runToFilter envW cPerc (some [pA, pB])))
      ((runToFilter envW cPerc (some [pA, pB])).2) (by decide) (by decide)).2
    (okPsms (rescoreRun envW cPerc (some [pA, pB])).1) (by decide)

theorem provFrom_engineDispatch (env : Env) (c : Config) (psms : List PSM) :
    ProvFrom psms (engineDispatch env c psms).1 := by
  unfold engineDispatch
  split
  · exact provFrom_applyEngineOutput psms _
  · split
    · exact provFrom_applyEngineOutput psms _
    · exact provFrom_refl psms

theorem runFromFilter_prov {env : Env} {c : Config} {st : MidState} {tr : List Event}
    {out : List PSM} (h : (runFromFilter env c st tr).1 = .ok out) :
    ProvFrom st.psms out := by
  have hfil : ProvFrom st.psms (filterStage (regOf st) st.psms).1 :=
    provFrom_maskFilter st.psms _
  simp only [runFromFilter] at h
  split at h
  · have h2 : usiStage env c (filterStage (regOf st) st.psms).1 = out := by
      simpa using h
    rw [← h2]
    exact provFrom_trans hfil (provFrom_usiStage env c _)
  · split at h
    next e' heq =>
      simp at h
    next idAfter heq =>
      have h2 : (engineDispatch env c
          (usiStage env c (filterStage (regOf st) st.psms).1)).1 = out := by
        simpa using h
      rw [← h2]
      exact provFrom_trans hfil
        (provFrom_trans (provFrom_usiStage env c _) (provFrom_engineDispatch env c _))

/-- C3: for every successful run, every PSM of the final collection carries
exactly the provenance snapshot taken (for some PSM of the post-q-value
collection) before modification parsing, id rewriting and the feature
generators: the four fixed `before_rescoring_*` keys hold that PSM's
then-current score, q-value, PEP and rank, and no later stage of the run —
including the engine overwriting `score` — changes those values; in the
trace, the snapshot precedes modification parsing, `psm_id_pattern`
application and every feature-generator invocation. -/
theorem c3_provenance_snapshot (env : Env) (c : Config) (arg : Option (List PSM))
    (h : exceptOk (rescoreRun env c arg).1 = true) :
    ∃ psms2 trq, runToQvalue env c arg = (.ok psms2, trq) ∧
      (∀ q ∈ okPsms (rescoreRun env c arg).1, ∃ p ∈ psms2,
        q.provenance_data = dictUpdate p.provenance_data (snapshotEntries p) ∧
        dictGet q.provenance_data "before_rescoring_score" = some (ProvValue.num p.score) ∧
        dictGet q.provenance_data "before_rescoring_qvalue" = some (ProvValue.num p.qvalue) ∧
        dictGet q.provenance_data "before_rescoring_pep" = some (ProvValue.num p.pep) ∧
        dictGet q.provenance_data "before_rescoring_rank" = some (ProvValue.int p.rank)) ∧
      (∃ rest, (rescoreRun env c arg).2 = trq ++ Event.captureProvenance :: rest ∧
        ∀ e ∈ trq, isGenEvent e = false ∧ e ≠ Event.parseModifications ∧
          e ≠ Event.applyPsmIdPattern) := by
  rcases hq : runToQvalue env c arg with ⟨r2, trq⟩
  cases r2 with
  | error e2 =>
    have hbad : rescoreRun env c arg = (.error e2, trq) := by
      unfold rescoreRun runToFilter
      rw [hq]
    rw [hbad] at h
    simp [exceptOk] at h
  | ok psms2 =>
    cases hic : idCountE psms2 with
    | error e2 =>
      have hbad : rescoreRun env c arg = (.error e2, trq) := by
        unfold rescoreRun runToFilter
        rw [hq]
        dsimp only
        rw [hic]
      rw [hbad] at h
      simp [exceptOk] at h
    | ok nB =>
      cases hps : patternStage env c (modStage env (psms2.map snapshotProv)) with
      | error e2 =>
        have hbad : rescoreRun env c arg =
            (.error e2, trq ++ [Event.captureProvenance, Event.parseModifications]) := by
          unfold rescoreRun runToFilter
          rw [hq]
          dsimp only
          rw [hic]
          dsimp only
          rw [hps]
        rw [hbad] at h
        simp [exceptOk] at h
      | ok psms5 =>
        have hrtf : runToFilter env c arg =
            (.ok ⟨nB, (runGenerators env c.feature_generators psms5).1,
                  psmFileFeatureNames psms5,
                  (runGenerators env c.feature_generators psms5).2.1⟩,
             trq ++ [Event.captureProvenance, Event.parseModifications] ++
               (if truthyStr c.psm_id_pattern then [Event.applyPsmIdPattern] else []) ++
               (runGenerators env c.feature_generators psms5).2.2) := by
          unfold runToFilter
          rw [hq]
          dsimp only
          rw [hic]
          dsimp only
          rw [hps]
        have hrun := rescoreRun_eq_runFromFilter hrtf
        refine ⟨psms2, trq, rfl, ?_, ?_⟩
        · intro q hmem
          have hout : ∃ out, (rescoreRun env c arg).1 = .ok out := by
            cases hr : (rescoreRun env c arg).1 with
            | error e3 => rw [hr] at h; simp [exceptOk] at h
            | ok out => exact ⟨out, rfl⟩
          obtain ⟨out, hout⟩ := hout
          have hchain : ProvFrom (psms2.map snapshotProv) out := by
            refine provFrom_trans (provFrom_modStage env _)
              (provFrom_trans (provFrom_patternStage hps) ?_)
            refine provFrom_trans (provFrom_runGenerators env c.feature_generators psms5) ?_
            exact runFromFilter_prov (by rw [← hrun]; exact hout)
          rw [hout] at hmem
          have hmem2 : q ∈ out := hmem
          obtain ⟨s, hs, hqs⟩ := hchain q hmem2
          obtain ⟨p, hp, hsp⟩ := provFrom_snapshot hs
          obtain ⟨g1, g2, g3, g4⟩ := dictGet_snapshot p
          refine ⟨p, hp, hqs.trans hsp, ?_, ?_, ?_, ?_⟩ <;>
            rw [hqs, hsp] <;> assumption
        · obtain ⟨tail, htr2, -⟩ := runFromFilter_trace_eq env c
            ⟨nB, (runGenerators env c.feature_generators psms5).1,
             psmFileFeatureNames psms5,
             (runGenerators env c.feature_generators psms5).2.1⟩
            (trq ++ [Event.captureProvenance, Event.parseModifications] ++
              (if truthyStr c.psm_id_pattern then [Event.applyPsmIdPattern] else []) ++
              (runGenerators env c.feature_generators psms5).2.2)
          refine ⟨Event.parseModifications ::
            ((if truthyStr c.psm_id_pattern then [Event.applyPsmIdPattern] else []) ++
             (runGenerators env c.feature_generators psms5).2.2 ++
             ((filterStage (regOf ⟨nB, (runGenerators env c.feature_generators psms5).1,
                 psmFileFeatureNames psms5,
                 (runGenerators env c.feature_generators psms5).2.1⟩)
               (runGenerators env c.feature_generators psms5).1).2 ++
              Event.writeFeatureNames (c.output_path ++ ".feature_names.tsv") :: tail)), ?_, ?_⟩
          · rw [hrun, htr2]
            simp [List.append_assoc]
          · intro e he
            have := runToQvalue_trace env c arg e (by rw [hq]; exact he)
            rcases this with h5 | h5 <;> simp [h5, isGenEvent]

/-- Witness for C3 at a concrete successful run. -/
theorem c3_witness :
    ∃ psms2 trq, runToQvalue envW cW (some [pA, pB]) = (.ok psms2, trq) ∧
      (∀ q ∈ okPsms (rescoreRun envW cW (some [pA, pB])).1, ∃ p ∈ psms2,
        q.provenance_data = dictUpdate p.provenance_data (snapshotEntries p) ∧
        dictGet q.provenance_data "before_rescoring_score" = some (ProvValue.num p.score) ∧
        dictGet q.provenance_data "before_rescoring_qvalue" = some (ProvValue.num p.qvalue) ∧
        dictGet q.provenance_data "before_rescoring_pep" = some (ProvValue.num p.pep) ∧
        dictGet q.provenance_data "before_rescoring_rank" = some (ProvValue.int p.rank)) ∧
      (∃ rest, (rescoreRun envW cW (some [pA, pB])).2 =
          trq ++ Event.captureProvenance :: rest ∧
        ∀ e ∈ trq, isGenEvent e = false ∧ e ≠ Event.parseModifications ∧
          e ≠ Event.applyPsmIdPattern) :=
  c3_provenance_snapshot envW cW (some [pA, pB]) (by decide)

end MS2Rescore
